import Mathlib

/-!
Verification of the scoring service in `src/service.py`.

The service is a single `/predict` endpoint:
* pydantic validates the request body against `features : List[List[float]]`
  (the field is required; pydantic imposes no length constraints, so an empty
  outer list and zero-length rows both pass validation; a non-numeric entry
  raises a `ValidationError`);
* `DummyModel.predict_proba` converts the features to a numpy array, sums each
  row, applies the logistic sigmoid, and stacks `[1 - p, p]` per row;
* `predict` extracts column 1 (the positive-class probability), thresholds the
  unrounded probability at 0.5 to get integer labels, and returns the labels
  together with the probabilities rounded to 4 decimal digits and a constant
  model version string.

Numeric values are idealised as real numbers (the Python code computes in IEEE
double precision; we model the exact arithmetic the formulas denote).
-/

namespace MLService

/-- One JSON value appearing as an entry of the `features` payload: either a
value pydantic coerces to `float`, or anything else (a non-numeric value),
which makes pydantic's validation of `List[List[float]]` fail. -/
inductive FeatureValue where
  | num (x : ℝ) : FeatureValue
  | invalid : FeatureValue

/-- The failures the request can run into: pydantic's `ValidationError` during
schema validation, numpy's `AxisError` (summing a 1-D array over axis 1), and
numpy's `ValueError` (building an ndarray from ragged nested lists). -/
inductive ServiceError where
  | validationError : ServiceError
  | axisError : ServiceError
  | valueError : ServiceError
deriving DecidableEq

/-- The body of `PredictionResponse` in `service.py`: integer labels, rounded
scores, and the constant `model_version` string. -/
structure PredictionResponse where
  predictions : List ℤ
  scores : List ℝ
  model_version : String

/-- Validation of a single entry against `float`: numeric values are accepted,
anything else raises `ValidationError`. -/
def parseValue : FeatureValue → Except ServiceError ℝ
  | .num x => .ok x
  | .invalid => .error .validationError

/-- Validation of one row against `List[float]`. -/
def parseRow : List FeatureValue → Except ServiceError (List ℝ)
  | [] => .ok []
  | v :: rest =>
    match parseValue v with
    | .error e => .error e
    | .ok x =>
      match parseRow rest with
      | .error e => .error e
      | .ok xs => .ok (x :: xs)

/-- Validation of the `features` field against `List[List[float]]` (pydantic
model `PredictionRequest`): every entry must be numeric; no constraint is
placed on the number of rows or on row lengths. -/
def parseFeatures : List (List FeatureValue) → Except ServiceError (List (List ℝ))
  | [] => .ok []
  | row :: rest =>
    match parseRow row with
    | .error e => .error e
    | .ok r =>
      match parseFeatures rest with
      | .error e => .error e
      | .ok rs => .ok (r :: rs)

/-- Whether all rows have the same length (`np.asarray` builds a proper 2-D
array exactly for such nested lists). -/
def isRect : List (List ℝ) → Bool
  | [] => true
  | r :: rs => rs.all (fun q => q.length = r.length)

/-- Models `np.asarray(X).sum(axis=1)` from `DummyModel.predict_proba`:
* `X = []` gives a 1-D empty array, so `sum(axis=1)` raises `AxisError`;
* ragged rows make `np.asarray` raise `ValueError` (it refuses to build an
  ndarray from ragged nested sequences);
* otherwise the result is the list of row sums (this includes `X = [[]]`,
  shape `(1, 0)`, whose single row sum is `0.0`). -/
def npRowSums (X : List (List ℝ)) : Except ServiceError (List ℝ) :=
  if X.isEmpty then .error .axisError
  else if isRect X then .ok (X.map List.sum)
  else .error .valueError

/-- The logistic sigmoid `1.0 / (1.0 + np.exp(-t))` from
`DummyModel.predict_proba`. -/
noncomputable def sigmoid (t : ℝ) : ℝ := 1 / (1 + Real.exp (-t))

/-- `DummyModel.predict_proba`: row sums, sigmoid, then
`np.vstack([probs_neg, probs_pos]).T`, i.e. one row `[1 - p, p]` per input
row. -/
noncomputable def predict_proba (X : List (List ℝ)) : Except ServiceError (List (List ℝ)) :=
  match npRowSums X with
  | .error e => .error e
  | .ok sums => .ok (sums.map (fun s => [1 - sigmoid s, sigmoid s]))

/-- Python's `round(x, 4)`, idealised over the reals: the nearest multiple of
`1 / 10000`. Mathlib's `round` breaks ties upward while Python breaks ties of
the underlying double to even; the two agree except at exact ties
(`x * 10000` half-integral), which do not occur at any input considered
here. -/
noncomputable def round4 (x : ℝ) : ℝ := ((round (x * 10000) : ℤ) : ℝ) / 10000

/-- The `/predict` endpoint body (`predict` in `service.py`) applied to
already-validated features: dummy-model probabilities, column 1 as scores,
labels `int(s >= 0.5)` on the unrounded scores, scores rounded to 4 digits in
the response. -/
noncomputable def predict (features : List (List ℝ)) : Except ServiceError PredictionResponse :=
  match predict_proba features with
  | .error e => .error e
  | .ok proba =>
    let scores := proba.map (fun row => row.getD 1 0)
    let predictions := scores.map (fun s => if s ≥ 0.5 then (1 : ℤ) else 0)
    .ok { predictions := predictions
          scores := scores.map round4
          model_version := "v1.0.0" }

/-- The whole endpoint as seen by a client: pydantic validation of the raw
payload, then `predict`. -/
noncomputable def handleRequest (raw : List (List FeatureValue)) :
    Except ServiceError PredictionResponse :=
  match parseFeatures raw with
  | .error e => .error e
  | .ok X => predict X

/-- A sequence of independent invocations of the endpoint (the service keeps
no state between requests, so a batch of calls is just a map). -/
noncomputable def runBatch (reqs : List (List (List FeatureValue))) :
    List (Except ServiceError PredictionResponse) :=
  reqs.map handleRequest

/-- The scores list of a response, or `[]` on an error. -/
def scoresOf : Except ServiceError PredictionResponse → List ℝ
  | .ok r => r.scores
  | .error _ => []

/-- The predictions list of a response, or `[]` on an error. -/
def predictionsOf : Except ServiceError PredictionResponse → List ℤ
  | .ok r => r.predictions
  | .error _ => []

/-! ### Basic facts about the pipeline -/

theorem npRowSums_ok (X : List (List ℝ)) (h0 : X ≠ []) (hrect : isRect X = true) :
    npRowSums X = .ok (X.map List.sum) := by
  have h1 : X.isEmpty = false := by
    cases X with
    | nil => exact absurd rfl h0
    | cons a as => rfl
  simp [npRowSums, h1, hrect]

theorem predict_proba_ok (X : List (List ℝ)) (h0 : X ≠ []) (hrect : isRect X = true) :
    predict_proba X =
      .ok (X.map (fun row => [1 - sigmoid row.sum, sigmoid row.sum])) := by
  unfold predict_proba
  rw [npRowSums_ok X h0 hrect]
  simp [List.map_map, Function.comp]

theorem predict_ok (X : List (List ℝ)) (h0 : X ≠ []) (hrect : isRect X = true) :
    predict X = .ok
      { predictions := X.map (fun row => if sigmoid row.sum ≥ 0.5 then (1 : ℤ) else 0)
        scores := X.map (fun row => round4 (sigmoid row.sum))
        model_version := "v1.0.0" } := by
  unfold predict
  rw [predict_proba_ok X h0 hrect]
  simp [List.map_map, Function.comp]

theorem getD_map_of_lt {α : Type} {β : Type} (f : α → β) (l : List α) (i : ℕ)
    (d : α) (e : β) (hi : i < l.length) : (l.map f).getD i e = f (l.getD i d) := by
  simp [List.getD_eq_getElem?_getD, List.getElem?_map, List.getElem?_eq_getElem hi,
    List.getD_eq_getElem l d hi]

/-! ### Facts about the sigmoid -/

theorem sigmoid_zero : sigmoid 0 = 1 / 2 := by
  simp [sigmoid, Real.exp_zero]
  norm_num

theorem sigmoid_pos (t : ℝ) : 0 < sigmoid t := by
  unfold sigmoid
  positivity

theorem sigmoid_lt_one (t : ℝ) : sigmoid t < 1 := by
  unfold sigmoid
  rw [div_lt_one (by positivity)]
  have := Real.exp_pos (-t)
  linarith

theorem sigmoid_le_sigmoid {a b : ℝ} (h : a ≤ b) : sigmoid a ≤ sigmoid b := by
  unfold sigmoid
  have hb : (0 : ℝ) < 1 + Real.exp (-b) := by positivity
  have ha : (0 : ℝ) < 1 + Real.exp (-a) := by positivity
  rw [div_le_div_iff₀ ha hb]
  have : Real.exp (-b) ≤ Real.exp (-a) := Real.exp_le_exp.mpr (by linarith)
  linarith

theorem half_le_sigmoid_iff (t : ℝ) : 1 / 2 ≤ sigmoid t ↔ 0 ≤ t := by
  unfold sigmoid
  rw [div_le_div_iff₀ (by norm_num) (by positivity)]
  constructor
  · intro h
    have : Real.exp (-t) ≤ 1 := by linarith
    have := Real.exp_le_one_iff.mp this
    linarith
  · intro h
    have : Real.exp (-t) ≤ 1 := Real.exp_le_one_iff.mpr (by linarith)
    linarith

/-! ### Facts about rounding to 4 decimal digits -/

theorem round_real_mono {a b : ℝ} (h : a ≤ b) : round a ≤ round b := by
  rw [round_eq, round_eq]
  exact Int.floor_le_floor (by linarith)

theorem round4_mono {a b : ℝ} (h : a ≤ b) : round4 a ≤ round4 b := by
  unfold round4
  have := round_real_mono (by linarith : a * 10000 ≤ b * 10000)
  have : ((round (a * 10000) : ℤ) : ℝ) ≤ ((round (b * 10000) : ℤ) : ℝ) := by
    exact_mod_cast this
  linarith

theorem round4_half : round4 (1 / 2) = 1 / 2 := by
  unfold round4
  have : round ((1 / 2 : ℝ) * 10000) = 5000 := by
    rw [round_eq]
    rw [Int.floor_eq_iff]
    constructor <;> norm_num
  rw [this]
  norm_num

theorem round4_nonneg {s : ℝ} (h : 0 ≤ s) : 0 ≤ round4 s := by
  unfold round4
  have h0 : round (0 : ℝ) ≤ round (s * 10000) := round_real_mono (by linarith)
  rw [round_zero] at h0
  have : (0 : ℝ) ≤ ((round (s * 10000) : ℤ) : ℝ) := by exact_mod_cast h0
  linarith

theorem round4_le_one {s : ℝ} (h : s ≤ 1) : round4 s ≤ 1 := by
  unfold round4
  have h1 : round (s * 10000) ≤ round ((10000 : ℤ) : ℝ) := round_real_mono (by push_cast; linarith)
  rw [round_intCast] at h1
  have : ((round (s * 10000) : ℤ) : ℝ) ≤ 10000 := by exact_mod_cast h1
  linarith

/-- Bounds on `exp (1/10000)` used to locate a score just below `0.5` that
rounds up to `0.5`. -/
theorem exp_small_bounds :
    1 < Real.exp (1 / 10000) ∧ Real.exp (1 / 10000) ≤ 10000 / 9999 := by
  constructor
  · have h := Real.add_one_le_exp (1 / 10000)
    linarith
  · have h := Real.add_one_le_exp (-(1 / 10000))
    rw [Real.exp_neg] at h
    have hpos := Real.exp_pos (1 / 10000)
    have hmul : Real.exp (1 / 10000) * (Real.exp (1 / 10000))⁻¹ = 1 :=
      mul_inv_cancel₀ (ne_of_gt hpos)
    nlinarith

/-- The sigmoid of `-1/10000` lies in `[0.49995, 0.5)`. -/
theorem sigmoid_neg_small :
    9999 / 20000 ≤ sigmoid (-(1 / 10000)) ∧ sigmoid (-(1 / 10000)) < 1 / 2 := by
  obtain ⟨h1, h2⟩ := exp_small_bounds
  unfold sigmoid
  rw [neg_neg]
  have hupos : 0 < Real.exp (1 / 10000) := Real.exp_pos _
  constructor
  · rw [div_le_div_iff₀ (by norm_num) (by positivity)]
    nlinarith
  · rw [div_lt_div_iff₀ (by positivity) (by norm_num)]
    nlinarith

/-- Rounding `sigmoid (-1/10000)` to 4 digits gives exactly `0.5`. -/
theorem round4_sigmoid_neg_small : round4 (sigmoid (-(1 / 10000))) = 1 / 2 := by
  obtain ⟨hlo, hhi⟩ := sigmoid_neg_small
  unfold round4
  have h5 : round (sigmoid (-(1 / 10000)) * 10000) = 5000 := by
    rw [round_eq, Int.floor_eq_iff]
    constructor
    · push_cast
      nlinarith
    · push_cast
      nlinarith
  rw [h5]
  norm_num

/-! ### Rectangularity and row updates -/

theorem isRect_iff (X : List (List ℝ)) :
    isRect X = true ↔ ∀ a ∈ X, ∀ b ∈ X, a.length = b.length := by
  cases X with
  | nil => simp [isRect]
  | cons r rs =>
    simp only [isRect, List.all_eq_true, decide_eq_true_eq]
    constructor
    · intro h a ha b hb
      rcases List.mem_cons.mp ha with rfl | ha'
      · rcases List.mem_cons.mp hb with rfl | hb'
        · rfl
        · exact (h b hb').symm
      · rcases List.mem_cons.mp hb with rfl | hb'
        · exact h a ha'
        · exact (h a ha').trans (h b hb').symm
    · intro h q hq
      exact h q (List.mem_cons_of_mem _ hq) r (List.mem_cons_self _ _)

theorem isRect_set (X : List (List ℝ)) (i : ℕ) (r : List ℝ) (hrect : isRect X = true)
    (hi : i < X.length) (hlen : r.length = (X.getD i []).length) :
    isRect (X.set i r) = true := by
  rw [isRect_iff] at hrect ⊢
  have hmem : X.getD i [] ∈ X := by
    rw [List.getD_eq_getElem X [] hi]
    exact List.getElem_mem hi
  intro a ha b hb
  rcases List.mem_or_eq_of_mem_set ha with ha' | rfl
  · rcases List.mem_or_eq_of_mem_set hb with hb' | rfl
    · exact hrect a ha' b hb'
    · rw [hlen]
      exact hrect a ha' _ hmem
  · rcases List.mem_or_eq_of_mem_set hb with hb' | rfl
    · rw [hlen]
      exact hrect _ hmem b hb'
    · rfl

theorem sum_le_sum_set (L : List ℝ) (j : ℕ) (v : ℝ) (hj : j < L.length)
    (hv : L.getD j 0 ≤ v) : L.sum ≤ (L.set j v).sum := by
  rw [List.sum_set', dif_pos hj]
  rw [List.getD_eq_getElem L 0 hj] at hv
  linarith

/-! ### Validation failures -/

theorem parseRow_error_eq (r : List FeatureValue) (e : ServiceError)
    (h : parseRow r = .error e) : e = .validationError := by
  induction r with
  | nil => simp [parseRow] at h
  | cons v rest ih =>
    cases v with
    | invalid =>
      simp [parseRow, parseValue] at h
      exact h.symm
    | num x =>
      simp only [parseRow, parseValue] at h
      cases hr : parseRow rest with
      | error e' =>
        rw [hr] at h
        simp only [Except.error.injEq] at h
        subst h
        exact ih hr
      | ok xs =>
        rw [hr] at h
        simp at h

theorem parseRow_of_invalid_mem (row : List FeatureValue)
    (h : FeatureValue.invalid ∈ row) : parseRow row = .error .validationError := by
  induction row with
  | nil => cases h
  | cons v rest ih =>
    cases v with
    | invalid => simp [parseRow, parseValue]
    | num x =>
      have h' : FeatureValue.invalid ∈ rest := by
        rcases List.mem_cons.mp h with heq | h'
        · exact absurd heq (by simp)
        · exact h'
      simp [parseRow, parseValue, ih h']

theorem parseFeatures_of_invalid_mem (raw : List (List FeatureValue))
    (h : ∃ row ∈ raw, FeatureValue.invalid ∈ row) :
    parseFeatures raw = .error .validationError := by
  induction raw with
  | nil =>
    obtain ⟨row, hrow, _⟩ := h
    cases hrow
  | cons r rest ih =>
    obtain ⟨row, hrow, hmem⟩ := h
    rcases List.mem_cons.mp hrow with rfl | hrow'
    · simp [parseFeatures, parseRow_of_invalid_mem _ hmem]
    · cases hr : parseRow r with
      | error e =>
        have he := parseRow_error_eq r e hr
        subst he
        simp [parseFeatures, hr]
      | ok xs =>
        have hrest := ih ⟨row, hrow', hmem⟩
        simp [parseFeatures, hr, hrest]

theorem handleRequest_of_invalid (raw : List (List FeatureValue))
    (h : ∃ row ∈ raw, FeatureValue.invalid ∈ row) :
    handleRequest raw = .error .validationError := by
  simp [handleRequest, parseFeatures_of_invalid_mem raw h]

theorem handleRequest_nil_eq :
    handleRequest ([] : List (List FeatureValue)) = .error .axisError := by
  simp [handleRequest, parseFeatures, predict, predict_proba, npRowSums]

theorem handleRequest_emptyRow_eq :
    handleRequest ([[]] : List (List FeatureValue)) =
      .ok { predictions := [1], scores := [1 / 2], model_version := "v1.0.0" } := by
  have hparse : parseFeatures ([[]] : List (List FeatureValue)) = .ok [[]] := rfl
  unfold handleRequest
  rw [hparse]
  show predict ([[]] : List (List ℝ)) = _
  rw [predict_ok [[]] (by simp) rfl]
  have hs : sigmoid (([] : List ℝ)).sum = 1 / 2 := by
    rw [List.sum_nil, sigmoid_zero]
  simp only [List.map_cons, List.map_nil, hs, round4_half]
  norm_num

/-! ### The claims -/

/-- Claim C1: for every valid rectangular `FeatureMatrix` input and every row
index `i`, the `i`-th returned score equals the logistic sigmoid of the sum of
row `i`, rounded to 4 decimal digits. -/
theorem C1_score_formula (X : List (List ℝ)) (i : ℕ) (hrect : isRect X = true)
    (hi : i < X.length) :
    (scoresOf (predict X)).getD i 0 = round4 (sigmoid ((X.getD i []).sum)) := by
  have h0 : X ≠ [] := List.length_pos.mp (Nat.lt_of_le_of_lt (Nat.zero_le i) hi)
  rw [predict_ok X h0 hrect]
  simp [scoresOf, List.getD_eq_getElem?_getD, List.getElem?_map,
    List.getElem?_eq_getElem hi]

theorem C1_witness :
    (scoresOf (predict [[(0 : ℝ)]])).getD 0 0 =
      round4 (sigmoid ((([[(0 : ℝ)]].getD 0 []).sum))) :=
  C1_score_formula [[(0 : ℝ)]] 0 rfl (by norm_num)

/-- Claim C2 as stated is false: the prediction is computed from the unrounded
probability, so at input `[[-1/10000]]` the returned (rounded) score is `0.5`
yet the prediction is `0`, not `if score ≥ 0.5 then 1 else 0 = 1`. -/
theorem C2_counterexample :
    ¬ ((predictionsOf (predict [[-(1 / 10000 : ℝ)]])).getD 0 0 =
        if (scoresOf (predict [[-(1 / 10000 : ℝ)]])).getD 0 0 ≥ 0.5 then 1 else 0) := by
  have h0 : ([[-(1 / 10000 : ℝ)]] : List (List ℝ)) ≠ [] := by simp
  rw [predict_ok _ h0 rfl]
  obtain ⟨hlo, hhi⟩ := sigmoid_neg_small
  have hsum : ([-(1 / 10000 : ℝ)]).sum = -(1 / 10000) := by simp
  have hlt : ¬ (sigmoid (([-(1 / 10000 : ℝ)]).sum) ≥ 0.5) := by
    rw [hsum]
    norm_num
    linarith
  simp only [predictionsOf, scoresOf, List.map_cons, List.map_nil, if_neg hlt,
    List.getD_cons_zero]
  simp only [hsum, round4_sigmoid_neg_small]
  norm_num

/-- Claim C2 amended: the prediction is determined by the UNROUNDED
probability: `predictions[i] = 1` iff `sigmoid (sum row_i) ≥ 0.5` and `0`
otherwise; the 0.5 threshold is applied before rounding, so the rounded score
in the response can be `0.5` while the prediction is `0`. -/
theorem C2_amended_threshold_unrounded (X : List (List ℝ)) (i : ℕ)
    (hrect : isRect X = true) (hi : i < X.length) :
    ((predictionsOf (predict X)).getD i 0 = 1 ↔ sigmoid ((X.getD i []).sum) ≥ 0.5) ∧
    ((predictionsOf (predict X)).getD i 0 = 0 ↔ ¬ sigmoid ((X.getD i []).sum) ≥ 0.5) := by
  have h0 : X ≠ [] := List.length_pos.mp (Nat.lt_of_le_of_lt (Nat.zero_le i) hi)
  rw [predict_ok X h0 hrect]
  simp only [predictionsOf]
  rw [getD_map_of_lt _ X i [] 0 hi]
  by_cases h : sigmoid ((X.getD i []).sum) ≥ 0.5
  · rw [if_pos h]
    constructor
    · exact ⟨fun _ => h, fun _ => rfl⟩
    · exact ⟨fun h10 => absurd h10 one_ne_zero, fun hn => absurd h hn⟩
  · rw [if_neg h]
    constructor
    · exact ⟨fun h01 => absurd h01.symm one_ne_zero, fun hs => absurd hs h⟩
    · exact ⟨fun _ => h, fun _ => rfl⟩

theorem C2_amended_witness :
    ((predictionsOf (predict [[(0 : ℝ)]])).getD 0 0 = 1 ↔
      sigmoid (([[(0 : ℝ)]].getD 0 []).sum) ≥ 0.5) ∧
    ((predictionsOf (predict [[(0 : ℝ)]])).getD 0 0 = 0 ↔
      ¬ sigmoid (([[(0 : ℝ)]].getD 0 []).sum) ≥ 0.5) :=
  C2_amended_threshold_unrounded [[(0 : ℝ)]] 0 rfl (by norm_num)

/-- Claim C4: for every valid input, the response has as many predictions and
as many scores as there are input rows. -/
theorem C4_lengths (X : List (List ℝ)) (h0 : X ≠ []) (hrect : isRect X = true) :
    (predictionsOf (predict X)).length = X.length ∧
    (scoresOf (predict X)).length = X.length := by
  rw [predict_ok X h0 hrect]
  simp [predictionsOf, scoresOf]

theorem C4_witness :
    (predictionsOf (predict [[(0 : ℝ)]])).length = ([[(0 : ℝ)]] : List (List ℝ)).length ∧
    (scoresOf (predict [[(0 : ℝ)]])).length = ([[(0 : ℝ)]] : List (List ℝ)).length :=
  C4_lengths [[(0 : ℝ)]] (by simp) rfl

/-- Claim C5: the returned label of row `i` is `1` exactly when the unrounded
probability `sigmoid (sum row_i)` is at least `0.5`, and `0` otherwise. -/
theorem C5_label_from_unrounded (X : List (List ℝ)) (i : ℕ) (hrect : isRect X = true)
    (hi : i < X.length) :
    (predictionsOf (predict X)).getD i 0 =
      if sigmoid ((X.getD i []).sum) ≥ 0.5 then 1 else 0 := by
  have h0 : X ≠ [] := List.length_pos.mp (Nat.lt_of_le_of_lt (Nat.zero_le i) hi)
  rw [predict_ok X h0 hrect]
  simp [predictionsOf, List.getD_eq_getElem?_getD, List.getElem?_map,
    List.getElem?_eq_getElem hi]

theorem C5_witness :
    (predictionsOf (predict [[(0 : ℝ)]])).getD 0 0 =
      if sigmoid (([[(0 : ℝ)]].getD 0 []).sum) ≥ 0.5 then 1 else 0 :=
  C5_label_from_unrounded [[(0 : ℝ)]] 0 rfl (by norm_num)

/-- Claim C6: a row summing to exactly `0` yields returned probability `0.5`
and label `1`. -/
theorem C6_zero_sum_row (X : List (List ℝ)) (i : ℕ) (hrect : isRect X = true)
    (hi : i < X.length) (hsum : (X.getD i []).sum = 0) :
    (scoresOf (predict X)).getD i 0 = 1 / 2 ∧
    (predictionsOf (predict X)).getD i 0 = 1 := by
  have h0 : X ≠ [] := List.length_pos.mp (Nat.lt_of_le_of_lt (Nat.zero_le i) hi)
  rw [predict_ok X h0 hrect]
  simp only [scoresOf, predictionsOf, List.getD_eq_getElem?_getD, List.getElem?_map,
    List.getElem?_eq_getElem hi, Option.map_some', Option.getD_some]
  rw [List.getD_eq_getElem X [] hi] at hsum
  rw [hsum, sigmoid_zero, round4_half]
  refine ⟨rfl, ?_⟩
  rw [if_pos (by norm_num)]

theorem C6_witness :
    (scoresOf (predict [[(0 : ℝ)]])).getD 0 0 = 1 / 2 ∧
    (predictionsOf (predict [[(0 : ℝ)]])).getD 0 0 = 1 :=
  C6_zero_sum_row [[(0 : ℝ)]] 0 rfl (by norm_num) (by simp)

/-- Claim C3 as stated is false: a payload whose single row has length zero
passes validation and is scored successfully (score `0.5`, label `1`), and an
empty `features` array fails with numpy's `AxisError` rather than a
`ValidationError`. -/
theorem C3_counterexample :
    handleRequest ([[]] : List (List FeatureValue)) =
      .ok { predictions := [1], scores := [1 / 2], model_version := "v1.0.0" } ∧
    handleRequest ([] : List (List FeatureValue)) = .error .axisError ∧
    ServiceError.axisError ≠ ServiceError.validationError :=
  ⟨handleRequest_emptyRow_eq, handleRequest_nil_eq, by decide⟩

/-- Claim C3 amended: the scorer fails with a `ValidationError` exactly when
the input contains a non-numeric value; an empty `features` array passes
validation and fails inside `predict_proba` with numpy's `AxisError` (not a
`ValidationError`); a row of length zero passes validation and is scored
successfully with score `0.5`. -/
theorem C3_amended_validation (raw : List (List FeatureValue))
    (h : ∃ row ∈ raw, FeatureValue.invalid ∈ row) :
    handleRequest raw = .error .validationError ∧
    handleRequest ([] : List (List FeatureValue)) = .error .axisError ∧
    (∃ r, handleRequest ([[]] : List (List FeatureValue)) = .ok r ∧ r.scores = [1 / 2]) :=
  ⟨handleRequest_of_invalid raw h, handleRequest_nil_eq,
    ⟨_, handleRequest_emptyRow_eq, rfl⟩⟩

theorem C3_amended_witness :
    handleRequest ([[FeatureValue.invalid]] : List (List FeatureValue)) =
      .error .validationError ∧
    handleRequest ([] : List (List FeatureValue)) = .error .axisError ∧
    (∃ r, handleRequest ([[]] : List (List FeatureValue)) = .ok r ∧ r.scores = [1 / 2]) :=
  C3_amended_validation [[FeatureValue.invalid]]
    ⟨[FeatureValue.invalid], by simp, by simp⟩

/-- Claim C7: increasing one entry of one row, holding everything else fixed,
never decreases the returned (rounded) score of that row. -/
theorem C7_monotone (X : List (List ℝ)) (i j : ℕ) (hrect : isRect X = true)
    (hi : i < X.length) (hj : j < (X.getD i []).length) (v : ℝ)
    (hv : (X.getD i []).getD j 0 ≤ v) :
    (scoresOf (predict X)).getD i 0 ≤
      (scoresOf (predict (X.set i ((X.getD i []).set j v)))).getD i 0 := by
  have h0 : X ≠ [] := List.length_pos.mp (Nat.lt_of_le_of_lt (Nat.zero_le i) hi)
  have hlen' : ((X.getD i []).set j v).length = (X.getD i []).length :=
    List.length_set _ _ _
  have hrect' : isRect (X.set i ((X.getD i []).set j v)) = true :=
    isRect_set X i _ hrect hi hlen'
  have hlenX' : (X.set i ((X.getD i []).set j v)).length = X.length :=
    List.length_set _ _ _
  have hi' : i < (X.set i ((X.getD i []).set j v)).length := by
    rw [hlenX']
    exact hi
  have h0' : X.set i ((X.getD i []).set j v) ≠ [] :=
    List.length_pos.mp (Nat.lt_of_le_of_lt (Nat.zero_le i) hi')
  rw [predict_ok X h0 hrect, predict_ok _ h0' hrect']
  simp only [scoresOf]
  rw [getD_map_of_lt _ X i [] 0 hi, getD_map_of_lt _ _ i [] 0 hi']
  have hX'i : (X.set i ((X.getD i []).set j v)).getD i [] = (X.getD i []).set j v := by
    rw [List.getD_eq_getElem _ [] hi']
    exact List.getElem_set_self hi'
  rw [hX'i]
  exact round4_mono (sigmoid_le_sigmoid (sum_le_sum_set _ j v hj hv))

theorem C7_witness :
    (scoresOf (predict [[(0 : ℝ)]])).getD 0 0 ≤
      (scoresOf (predict ([[(0 : ℝ)]].set 0 (([[(0 : ℝ)]].getD 0 []).set 0 1)))).getD 0 0 :=
  C7_monotone [[(0 : ℝ)]] 0 0 rfl (by norm_num) (by simp) 1 (by simp)

/-- Claim C8: every returned score lies in `[0, 1]` and every returned
prediction is `0` or `1`. -/
theorem C8_ranges (X : List (List ℝ)) (h0 : X ≠ []) (hrect : isRect X = true) :
    (∀ s ∈ scoresOf (predict X), 0 ≤ s ∧ s ≤ 1) ∧
    (∀ p ∈ predictionsOf (predict X), p = 0 ∨ p = 1) := by
  rw [predict_ok X h0 hrect]
  simp only [scoresOf, predictionsOf]
  constructor
  · intro s hs
    simp only [List.mem_map] at hs
    obtain ⟨row, _, rfl⟩ := hs
    exact ⟨round4_nonneg (le_of_lt (sigmoid_pos _)),
      round4_le_one (le_of_lt (sigmoid_lt_one _))⟩
  · intro p hp
    simp only [List.mem_map] at hp
    obtain ⟨row, _, rfl⟩ := hp
    by_cases h : sigmoid row.sum ≥ 0.5
    · right
      rw [if_pos h]
    · left
      rw [if_neg h]

theorem C8_witness :
    (∀ s ∈ scoresOf (predict [[(0 : ℝ)]]), 0 ≤ s ∧ s ≤ 1) ∧
    (∀ p ∈ predictionsOf (predict [[(0 : ℝ)]]), p = 0 ∨ p = 1) :=
  C8_ranges [[(0 : ℝ)]] (by simp) rfl

/-- Claim C9: the endpoint is deterministic and stateless: the answer to a
request depends only on the request itself, never on its position in a batch
of invocations or on what other invocations surround it. -/
theorem C9_deterministic (reqs₁ reqs₂ : List (List (List FeatureValue)))
    (i₁ i₂ : ℕ) (q : List (List FeatureValue))
    (h₁ : reqs₁[i₁]? = some q) (h₂ : reqs₂[i₂]? = some q) :
    (runBatch reqs₁)[i₁]? = (runBatch reqs₂)[i₂]? := by
  simp [runBatch, List.getElem?_map, h₁, h₂]

theorem C9_witness :
    (runBatch [[[FeatureValue.num 0]]])[0]? =
      (runBatch [[], [[FeatureValue.num 0]]])[1]? :=
  C9_deterministic [[[FeatureValue.num 0]]] [[], [[FeatureValue.num 0]]] 0 1
    [[FeatureValue.num 0]] rfl rfl

/-- Claim C10: whenever `predict_proba` succeeds, each row of the returned
probability matrix is `[1 - p, p]` and hence sums to exactly `1`. -/
theorem C10_proba_rows_sum_one (X : List (List ℝ)) (P : List (List ℝ))
    (hP : predict_proba X = .ok P) : ∀ row ∈ P, row.sum = 1 := by
  unfold predict_proba at hP
  cases hnp : npRowSums X with
  | error e =>
    rw [hnp] at hP
    exact absurd hP (by simp)
  | ok sums =>
    rw [hnp] at hP
    simp only [Except.ok.injEq] at hP
    subst hP
    intro row hrow
    simp only [List.mem_map] at hrow
    obtain ⟨s, _, rfl⟩ := hrow
    simp only [List.sum_cons, List.sum_nil]
    ring

theorem C10_witness :
    ([1 - sigmoid ([(0 : ℝ)].sum), sigmoid ([(0 : ℝ)].sum)] : List ℝ).sum = 1 :=
  C10_proba_rows_sum_one [[(0 : ℝ)]] _ (predict_proba_ok [[(0 : ℝ)]] (by simp) rfl)
    _ (by simp)

end MLService
